import Mathlib

/-
Verification of the rehashed-sources reconciliation job (src/main.py and
src/config.py) against its natural-language specification.

Shallow embedding conventions:
- Dynamic Python cell values are `PyVal` (integer, string, or null/NaN).
- A pandas DataFrame is a list of typed row structures, in row order.
- The in-place mutation performed by `df2.dropna(subset=[...], inplace=True)`
  is embedded by state passing: `generateAffSourcePairs` returns both its
  result list and the offers frame as it stands after the call.
- The PostgreSQL `hashtext` function is external to the repository, so every
  definition that needs it takes an abstract `hashFn : String → Int`
  parameter; `hashtextModel` below is a concrete stand-in used only to
  instantiate theorems at concrete inputs.
- Fallible steps (query execution, DataFrame assembly) return `Except`.
-/

namespace Rehash

/-- A dynamically typed Python/pandas cell value: an integer, a string, or a
null (None/NaN). -/
inductive PyVal where
  | vint : Int → PyVal
  | vstr : String → PyVal
  | vnone : PyVal
deriving DecidableEq

/-- Python `str(v)`: decimal rendering for integers, identity for strings,
`"None"` for null. Never fails. -/
def pyStr : PyVal → String
  | .vint n => toString n
  | .vstr s => s
  | .vnone => "None"

/-- Python `int(v)`: identity on integers, integer parsing on strings
(failure for non-numeric text), failure on null. -/
def pyInt : PyVal → Option Int
  | .vint n => some n
  | .vstr s => s.toInt?
  | .vnone => none

/-- One row of the click query result (`query_aff`): columns
`current_aff_id` and `current_source`. -/
structure ClickRow where
  current_aff_id : PyVal
  current_source : PyVal
deriving DecidableEq

/-- One row of the offer/segment query result (`query_acc`): columns
`offer_id`, `source_token_blacklist`, `source_token_whitelist`,
`ssp_account_id`, `ssp_segment_id`, `name`, `advertiser`. The two token
columns hold set-like collections of string tokens. -/
structure OfferRow where
  offer_id : PyVal
  source_token_blacklist : List String
  source_token_whitelist : List String
  ssp_account_id : PyVal
  ssp_segment_id : PyVal
  name : PyVal
  advertiser : PyVal
deriving DecidableEq

/-- A candidate tuple as built in `generate_aff_source_pairs`:
`(aff_id, source, account_id, segment_id, offer_id, advertiser, segment_name)`
where `account_id` went through `str(...)` and `segment_id` through
`int(...)`; the other fields are passed through untyped. -/
structure CandidateTuple where
  aff_id : PyVal
  source : PyVal
  account_id : String
  segment_id : Int
  offer_id : PyVal
  advertiser : PyVal
  segment_name : PyVal
deriving DecidableEq

/-- One row of the DataFrame assembled at the end of
`traffic_source_hash_pairs`: the seven tuple columns plus `hash_value`. -/
structure HashedRow where
  aff_id : PyVal
  source : PyVal
  account_id : String
  segment_id : Int
  offer_id : PyVal
  advertiser : PyVal
  segment_name : PyVal
  hash_value : Int
deriving DecidableEq

/-- Projection of a `HashedRow` back to its seven tuple columns. -/
def toCandidate (r : HashedRow) : CandidateTuple :=
  ⟨r.aff_id, r.source, r.account_id, r.segment_id, r.offer_id, r.advertiser,
    r.segment_name⟩

/-- `s.add(x)` on a Python set, embedded on an insertion-ordered
duplicate-free list. -/
def pysetAdd {α : Type} [DecidableEq α] (acc : List α) (x : α) : List α :=
  if x ∈ acc then acc else acc ++ [x]

/-- The body of the inner loop of `generate_aff_source_pairs` for one offer
row: coerce `ssp_segment_id` with `int(...)` (an exception is logged and the
row skipped), form `set(w_list) | set(b_list)`, and when that union is
non-empty add the candidate tuple to the accumulator set. -/
def processOffer (affId source : PyVal) (acc : List CandidateTuple)
    (row : OfferRow) : List CandidateTuple :=
  match pyInt row.ssp_segment_id with
  | none => acc
  | some seg =>
    if (row.source_token_whitelist ++ row.source_token_blacklist) = [] then
      acc
    else
      pysetAdd acc
        ⟨affId, source, pyStr row.ssp_account_id, seg, row.offer_id,
          row.advertiser, row.name⟩

/-- `df2.dropna(subset=[ssp_segment_id], inplace=True)`: the offers frame
with every null-segment row removed. -/
def dropnaSegment (df2 : List OfferRow) : List OfferRow :=
  df2.filter (fun r => decide (r.ssp_segment_id ≠ PyVal.vnone))

/-- `generate_aff_source_pairs(df1, df2)` from src/main.py. It first runs
`df2.dropna(subset=[ssp_segment_id], inplace=True)`, mutating the callers
frame, then accumulates candidate tuples over the full cross product. The
second component of the result is the offers frame after the in-place
mutation, which the caller keeps using. -/
def generateAffSourcePairs (df1 : List ClickRow) (df2 : List OfferRow) :
    List CandidateTuple × List OfferRow :=
  (df1.foldl
    (fun acc c => (dropnaSegment df2).foldl
      (processOffer c.current_aff_id c.current_source) acc) [],
   dropnaSegment df2)

/-- `total_list_set.update(l)` on a Python set, embedded on an
insertion-ordered duplicate-free list. -/
def updateSet (acc : List String) (l : List String) : List String :=
  l.foldl pysetAdd acc

/-- `get_current_hashes(df)` from src/main.py: union of the whitelist and
blacklist tokens of every row whose `ssp_account_id` is non-null. -/
def getCurrentHashes (df : List OfferRow) : List String :=
  df.foldl
    (fun acc row =>
      if row.ssp_account_id ≠ PyVal.vnone then
        updateSet (updateSet acc row.source_token_whitelist)
          row.source_token_blacklist
      else acc) []

/-- The observed-hash set as computed by the reference run in `__main__`:
`generate_aff_source_pairs(df_aff, df_acc)` runs first and mutates `df_acc`
in place, then `get_current_hashes` is applied to that same frame. -/
def mainObservedHashes (dfAff : List ClickRow) (dfAcc : List OfferRow) :
    List String :=
  getCurrentHashes (generateAffSourcePairs dfAff dfAcc).2

/-- The per-candidate literal row built in `traffic_source_hash_pairs`:
`(int(pair[0]), str(pair[1]), str(pair[2]), int(pair[3]))`. On a
`CandidateTuple`, `pair[2]` is already a string and `pair[3]` already an
integer, so the only coercion that can fail is `int(pair[0])`; a failing row
is silently dropped (`except: pass`). -/
def coerceValue (p : CandidateTuple) : Option (Int × String × String × Int) :=
  match pyInt p.aff_id with
  | some a => some (a, pyStr p.source, p.account_id, p.segment_id)
  | none => none

/-- The string fed to `hashtext` for one literal row, following the SQL text:
the four fields cast to VARCHAR and joined with underscores. All four
literals are non-null by construction, so no COALESCE default fires. -/
def hashArgString (v : Int × String × String × Int) : String :=
  toString v.1 ++ "_" ++ v.2.1 ++ "_" ++ v.2.2.1 ++ "_" ++ toString v.2.2.2

/-- Error surfaced when the literal list is empty: PostgreSQL rejects a
VALUES clause containing no rows, so the batched query fails to execute. -/
def emptyValuesError : String :=
  "query failed: VALUES in FROM must contain at least one row"

/-- Error raised by the pandas DataFrame constructor when the seven tuple
columns and the hash column have different lengths. -/
def lengthMismatchError : String :=
  "ValueError: All arrays must be of the same length"

/-- Builds one output row of `traffic_source_hash_pairs` from a tuple of the
global `pairs` and one entry of the hash column. -/
def mkHashedRow (p : CandidateTuple) (h : Int) : HashedRow :=
  ⟨p.aff_id, p.source, p.account_id, p.segment_id, p.offer_id, p.advertiser,
    p.segment_name, h⟩

/-- `traffic_source_hash_pairs(data)` from src/main.py, with the database
hash function abstract and the module-level global `pairs` passed
explicitly as `pairsGlobal`. The SQL literal rows are built from `data`
(uncoercible entries silently dropped); the executed query returns one
`hashtext` value per literal row in order, or fails when the VALUES list is
empty; the final DataFrame zips the seven tuple columns taken from the
GLOBAL `pairs` with the hash column, and its constructor fails when the
column lengths differ. -/
def trafficSourceHashPairs (hashFn : String → Int)
    (data : List CandidateTuple) (pairsGlobal : List CandidateTuple) :
    Except String (List HashedRow) :=
  if (data.filterMap coerceValue).isEmpty then
    Except.error emptyValuesError
  else if ((data.filterMap coerceValue).map
      (fun v => hashFn (hashArgString v))).length = pairsGlobal.length then
    Except.ok (List.zipWith mkHashedRow pairsGlobal
      ((data.filterMap coerceValue).map (fun v => hashFn (hashArgString v))))
  else
    Except.error lengthMismatchError

/-- The filtering loop of `rehashed_sources`: keep each row of the hashed
results whose `str(hash_value)` is a member of the observed-hash set, and
re-emit its eight fields unchanged, in input order. -/
def rehashedSourcesLoop (hashedResults : List HashedRow)
    (hashedList : List String) : List HashedRow :=
  hashedResults.foldl
    (fun rows r =>
      if toString r.hash_value ∈ hashedList then rows ++ [r] else rows) []

/-- `rehashed_sources(hashed_list)` from src/main.py: it calls
`traffic_source_hash_pairs(pairs)` on the module-level global `pairs` (its
only parameter is the observed-hash set), then filters the result. -/
def rehashedSources (hashFn : String → Int) (hashedList : List String)
    (pairsGlobal : List CandidateTuple) : Except String (List HashedRow) :=
  match trafficSourceHashPairs hashFn pairsGlobal pairsGlobal with
  | Except.ok df => Except.ok (rehashedSourcesLoop df hashedList)
  | Except.error e => Except.error e

/-- A concrete stand-in for the external PostgreSQL `hashtext` function,
used only to instantiate hash-parametric theorems at concrete inputs; no
theorem depends on its particular values. -/
def hashtextModel (s : String) : Int :=
  s.foldl (fun h c => (h * 31 + Int.ofNat c.toNat) % 2147483648) 7

/-- The emission condition of the inner loop of `generate_aff_source_pairs`
for a given click and offer: the segment id coerces to an integer, the union
of the token lists is non-empty, and the emitted tuple has the prescribed
shape. -/
def Emits (affId source : PyVal) (o : OfferRow) (t : CandidateTuple) : Prop :=
  ∃ seg : Int, pyInt o.ssp_segment_id = some seg ∧
    (o.source_token_whitelist ++ o.source_token_blacklist) ≠ [] ∧
    t = ⟨affId, source, pyStr o.ssp_account_id, seg, o.offer_id,
      o.advertiser, o.name⟩

/-- The output row of `traffic_source_hash_pairs` for a coercible candidate
at a position where the `data` argument and the global `pairs` agree: the
seven tuple columns of the candidate plus the database hash of its coerced
literal row. -/
def rowWhenCoercible (hashFn : String → Int) (p : CandidateTuple) :
    HashedRow :=
  mkHashedRow p
    (hashFn (hashArgString
      ((pyInt p.aff_id).getD 0, pyStr p.source, p.account_id, p.segment_id)))

/-- Fixture offer whose `ssp_segment_id` is null but whose whitelist holds a
token; used to instantiate theorems at concrete inputs. -/
def offerNullSeg : OfferRow :=
  ⟨PyVal.vint 10, [], ["tok1"], PyVal.vstr "A", PyVal.vnone,
    PyVal.vstr "seg", PyVal.vstr "X"⟩

/-- Fixture offer with a non-null integer segment id and a non-empty
whitelist. -/
def offerGood : OfferRow :=
  ⟨PyVal.vint 10, [], ["tok1"], PyVal.vstr "A", PyVal.vint 5,
    PyVal.vstr "seg", PyVal.vstr "X"⟩

/-- Fixture click rows. -/
def clickA : ClickRow := ⟨PyVal.vint 1, PyVal.vstr "fb"⟩

def clickB : ClickRow := ⟨PyVal.vint 2, PyVal.vstr "tw"⟩

/-- Fixture candidate whose `aff_id` is null, so `int(pair[0])` raises and
the literal row is dropped. -/
def badTuple : CandidateTuple :=
  ⟨PyVal.vnone, PyVal.vstr "fb", "A", 5, PyVal.vint 10,
    PyVal.vstr "adv", PyVal.vstr "seg"⟩

/-- Fixture candidate all of whose fields coerce. -/
def goodTuple : CandidateTuple :=
  ⟨PyVal.vint 1, PyVal.vstr "fb", "A", 5, PyVal.vint 10,
    PyVal.vstr "adv", PyVal.vstr "seg"⟩

/-- Fixture candidate built from `clickA` and `offerGood`. -/
def candA : CandidateTuple :=
  ⟨PyVal.vint 1, PyVal.vstr "fb", "A", 5, PyVal.vint 10,
    PyVal.vstr "X", PyVal.vstr "seg"⟩

/-! Basic lemmas about the embedded Python-set operations. -/

theorem mem_pysetAdd {α : Type} [DecidableEq α] {acc : List α} {x t : α} :
    t ∈ pysetAdd acc x ↔ t ∈ acc ∨ t = x := by
  unfold pysetAdd
  split
  · rename_i hx
    constructor
    · exact fun h => Or.inl h
    · rintro (h | rfl)
      · exact h
      · exact hx
  · simp [List.mem_append]

theorem nodup_pysetAdd {α : Type} [DecidableEq α] {acc : List α} {x : α}
    (h : acc.Nodup) : (pysetAdd acc x).Nodup := by
  unfold pysetAdd
  split
  · exact h
  · rename_i hx
    simp [List.nodup_append, h, hx]

theorem foldl_preserves {α β : Type} (f : β → α → β) (P : β → Prop)
    (hf : ∀ b a, P b → P (f b a)) :
    ∀ (l : List α) (b : β), P b → P (l.foldl f b) := by
  intro l
  induction l with
  | nil => exact fun b hb => hb
  | cons x xs ih => exact fun b hb => ih _ (hf b x hb)

theorem foldl_funext {α β : Type} {f g : β → α → β} (l : List α) (b : β)
    (h : ∀ acc a, f acc a = g acc a) : l.foldl f b = l.foldl g b := by
  induction l generalizing b with
  | nil => rfl
  | cons x xs ih => rw [List.foldl_cons, List.foldl_cons, h, ih]

theorem foldl_id {α β : Type} (l : List α) (b : β) :
    l.foldl (fun acc _ => acc) b = b := by
  induction l generalizing b with
  | nil => rfl
  | cons x xs ih => rw [List.foldl_cons]; exact ih b

/-! Membership characterization of candidate generation. -/

theorem mem_processOffer {affId source : PyVal} {acc : List CandidateTuple}
    {row : OfferRow} {t : CandidateTuple} :
    t ∈ processOffer affId source acc row ↔
      t ∈ acc ∨ Emits affId source row t := by
  unfold processOffer
  split
  · rename_i hseg
    simp [Emits, hseg]
  · rename_i seg hseg
    split
    · rename_i hl
      simp [Emits, hseg, hl]
    · rename_i hl
      rw [mem_pysetAdd]
      simp [Emits, hseg, hl]

theorem mem_foldl_processOffer {affId source : PyVal} (l : List OfferRow)
    (acc : List CandidateTuple) (t : CandidateTuple) :
    t ∈ l.foldl (processOffer affId source) acc ↔
      t ∈ acc ∨ ∃ o ∈ l, Emits affId source o t := by
  induction l generalizing acc with
  | nil => simp
  | cons o rest ih =>
    rw [List.foldl_cons, ih, mem_processOffer]
    simp only [List.mem_cons]
    constructor
    · rintro ((h | h) | ⟨o2, ho2, h⟩)
      · exact Or.inl h
      · exact Or.inr ⟨o, Or.inl rfl, h⟩
      · exact Or.inr ⟨o2, Or.inr ho2, h⟩
    · rintro (h | ⟨o2, (rfl | ho2), h⟩)
      · exact Or.inl (Or.inl h)
      · exact Or.inl (Or.inr h)
      · exact Or.inr ⟨o2, ho2, h⟩

theorem mem_dropnaSegment {df2 : List OfferRow} {o : OfferRow} :
    o ∈ dropnaSegment df2 ↔ o ∈ df2 ∧ o.ssp_segment_id ≠ PyVal.vnone := by
  simp [dropnaSegment, List.mem_filter]

theorem mem_foldl_clicks (df1 : List ClickRow) (df2K : List OfferRow)
    (acc : List CandidateTuple) (t : CandidateTuple) :
    t ∈ df1.foldl
        (fun a c => df2K.foldl
          (processOffer c.current_aff_id c.current_source) a) acc ↔
      t ∈ acc ∨ ∃ c ∈ df1, ∃ o ∈ df2K,
        Emits c.current_aff_id c.current_source o t := by
  induction df1 generalizing acc with
  | nil => simp
  | cons c rest ih =>
    rw [List.foldl_cons, ih, mem_foldl_processOffer]
    simp only [List.mem_cons]
    constructor
    · rintro ((h | ⟨o, ho, h⟩) | ⟨c2, hc2, ho⟩)
      · exact Or.inl h
      · exact Or.inr ⟨c, Or.inl rfl, o, ho, h⟩
      · exact Or.inr ⟨c2, Or.inr hc2, ho⟩
    · rintro (h | ⟨c2, (rfl | hc2), ho⟩)
      · exact Or.inl (Or.inl h)
      · exact Or.inl (Or.inr ho)
      · exact Or.inr ⟨c2, hc2, ho⟩

theorem mem_generateAffSourcePairs (df1 : List ClickRow) (df2 : List OfferRow)
    (t : CandidateTuple) :
    t ∈ (generateAffSourcePairs df1 df2).1 ↔
      ∃ c ∈ df1, ∃ o ∈ df2, o.ssp_segment_id ≠ PyVal.vnone ∧
        Emits c.current_aff_id c.current_source o t := by
  show t ∈ df1.foldl _ [] ↔ _
  rw [mem_foldl_clicks]
  constructor
  · rintro (h | ⟨c, hc, o, ho, he⟩)
    · simp at h
    · rcases mem_dropnaSegment.mp ho with ⟨ho2, hseg⟩
      exact ⟨c, hc, o, ho2, hseg, he⟩
  · rintro ⟨c, hc, o, ho, hseg, he⟩
    exact Or.inr ⟨c, hc, o, mem_dropnaSegment.mpr ⟨ho, hseg⟩, he⟩

/-! Membership characterization of the observed-hash collection. -/

theorem mem_updateSet {acc : List String} {l : List String} {x : String} :
    x ∈ updateSet acc l ↔ x ∈ acc ∨ x ∈ l := by
  unfold updateSet
  induction l generalizing acc with
  | nil => simp
  | cons y rest ih =>
    rw [List.foldl_cons, ih, mem_pysetAdd]
    simp only [List.mem_cons]
    tauto

theorem mem_getCurrentHashes_core (df : List OfferRow) (acc : List String)
    (tok : String) :
    tok ∈ df.foldl
        (fun acc row =>
          if row.ssp_account_id ≠ PyVal.vnone then
            updateSet (updateSet acc row.source_token_whitelist)
              row.source_token_blacklist
          else acc) acc ↔
      tok ∈ acc ∨ ∃ o ∈ df, o.ssp_account_id ≠ PyVal.vnone ∧
        (tok ∈ o.source_token_whitelist ∨ tok ∈ o.source_token_blacklist) := by
  induction df generalizing acc with
  | nil => simp
  | cons o rest ih =>
    rw [List.foldl_cons, ih]
    rw [List.exists_mem_cons_iff]
    by_cases ha : o.ssp_account_id ≠ PyVal.vnone
    · rw [if_pos ha, mem_updateSet, mem_updateSet]
      constructor
      · rintro (((h | h) | h) | hrest)
        · exact Or.inl h
        · exact Or.inr (Or.inl ⟨ha, Or.inl h⟩)
        · exact Or.inr (Or.inl ⟨ha, Or.inr h⟩)
        · exact Or.inr (Or.inr hrest)
      · rintro (h | (⟨ha2, hw | hb⟩ | hrest))
        · exact Or.inl (Or.inl (Or.inl h))
        · exact Or.inl (Or.inl (Or.inr hw))
        · exact Or.inl (Or.inr hb)
        · exact Or.inr hrest
    · rw [if_neg ha]
      constructor
      · rintro (h | hrest)
        · exact Or.inl h
        · exact Or.inr (Or.inr hrest)
      · rintro (h | (⟨ha2, hmem⟩ | hrest))
        · exact Or.inl h
        · exact absurd ha2 ha
        · exact Or.inr hrest

theorem mem_getCurrentHashes (df : List OfferRow) (tok : String) :
    tok ∈ getCurrentHashes df ↔
      ∃ o ∈ df, o.ssp_account_id ≠ PyVal.vnone ∧
        (tok ∈ o.source_token_whitelist ∨ tok ∈ o.source_token_blacklist) := by
  unfold getCurrentHashes
  rw [mem_getCurrentHashes_core]
  simp

/-! Duplicate-freeness of the candidate set. -/

theorem nodup_processOffer {affId source : PyVal} {acc : List CandidateTuple}
    {row : OfferRow} (h : acc.Nodup) :
    (processOffer affId source acc row).Nodup := by
  unfold processOffer
  split
  · exact h
  · split
    · exact h
    · exact nodup_pysetAdd h

theorem nodup_generateAffSourcePairs (df1 : List ClickRow)
    (df2 : List OfferRow) : (generateAffSourcePairs df1 df2).1.Nodup := by
  show (df1.foldl _ []).Nodup
  refine foldl_preserves _ List.Nodup ?_ df1 [] List.nodup_nil
  intro acc c hacc
  exact foldl_preserves _ List.Nodup
    (fun acc2 o h2 => nodup_processOffer h2) _ acc hacc

/-! The filtering loop of rehashed_sources. -/

theorem foldl_keep_filter {α : Type} (q : α → Prop) [DecidablePred q]
    (l : List α) (acc : List α) :
    l.foldl (fun rows r => if q r then rows ++ [r] else rows) acc =
      acc ++ l.filter (fun r => decide (q r)) := by
  induction l generalizing acc with
  | nil => simp
  | cons r rest ih =>
    rw [List.foldl_cons, ih]
    by_cases h : q r
    · simp [h, List.filter_cons]
    · simp [h, List.filter_cons]

theorem rehashedSourcesLoop_eq_filter (hashedResults : List HashedRow)
    (hashedList : List String) :
    rehashedSourcesLoop hashedResults hashedList =
      hashedResults.filter
        (fun r => decide (toString r.hash_value ∈ hashedList)) := by
  unfold rehashedSourcesLoop
  rw [foldl_keep_filter (fun r : HashedRow => toString r.hash_value ∈ hashedList)]
  simp

/-! Lemmas about the hash recomputation step. -/

theorem coerceValue_eq_none {p : CandidateTuple} :
    coerceValue p = none ↔ pyInt p.aff_id = none := by
  unfold coerceValue
  cases pyInt p.aff_id <;> simp

theorem map_toCandidate_zipWith (ps : List CandidateTuple) (hs : List Int)
    (h : hs.length = ps.length) :
    (List.zipWith mkHashedRow ps hs).map toCandidate = ps := by
  induction ps generalizing hs with
  | nil => simp
  | cons p rest ih =>
    cases hs with
    | nil => simp at h
    | cons x hs2 =>
      rw [List.zipWith_cons_cons, List.map_cons]
      rw [List.length_cons, List.length_cons] at h
      rw [ih hs2 (Nat.succ_injective h)]
      rfl

theorem map_hash_zipWith (ps : List CandidateTuple) (hs : List Int)
    (h : hs.length = ps.length) :
    (List.zipWith mkHashedRow ps hs).map HashedRow.hash_value = hs := by
  induction ps generalizing hs with
  | nil => cases hs with
    | nil => simp
    | cons x hs2 => simp at h
  | cons p rest ih =>
    cases hs with
    | nil => simp at h
    | cons x hs2 =>
      rw [List.zipWith_cons_cons, List.map_cons]
      rw [List.length_cons, List.length_cons] at h
      rw [ih hs2 (Nat.succ_injective h)]
      rfl

theorem trafficSourceHashPairs_ok {hashFn : String → Int}
    {data pairsGlobal : List CandidateTuple} {out : List HashedRow}
    (h : trafficSourceHashPairs hashFn data pairsGlobal = Except.ok out) :
    ((data.filterMap coerceValue).map
        (fun v => hashFn (hashArgString v))).length = pairsGlobal.length ∧
    out = List.zipWith mkHashedRow pairsGlobal
      ((data.filterMap coerceValue).map (fun v => hashFn (hashArgString v))) := by
  unfold trafficSourceHashPairs at h
  split at h
  · exact absurd h (by simp)
  · split at h
    · rename_i hlen
      exact ⟨hlen, (Except.ok.injEq _ _ ▸ h).symm⟩
    · exact absurd h (by simp)

theorem filterMap_coerceValue_all_some {data : List CandidateTuple}
    (h : ∀ p ∈ data, (pyInt p.aff_id).isSome) :
    data.filterMap coerceValue =
      data.map (fun p =>
        ((pyInt p.aff_id).getD 0, pyStr p.source, p.account_id,
          p.segment_id)) := by
  induction data with
  | nil => simp
  | cons p rest ih =>
    have hp := h p (List.mem_cons_self p rest)
    rw [List.filterMap_cons, List.map_cons]
    cases hap : pyInt p.aff_id with
    | none => rw [hap] at hp; simp at hp
    | some a =>
      have hcv : coerceValue p = some (a, pyStr p.source, p.account_id,
          p.segment_id) := by
        unfold coerceValue
        rw [hap]
      simp [hcv, hap, ih (fun q hq => h q (List.mem_cons_of_mem p hq))]

theorem length_filterMap_lt {α β : Type} (f : α → Option β) (l : List α)
    (h : ∃ p ∈ l, f p = none) : (l.filterMap f).length < l.length := by
  induction l with
  | nil => simp at h
  | cons a rest ih =>
    rw [List.filterMap_cons, List.length_cons]
    rcases h with ⟨p, hp, hfp⟩
    rcases List.mem_cons.mp hp with rfl | hmem
    · rw [hfp]
      exact Nat.lt_succ_of_le (List.length_filterMap_le f rest)
    · cases hfa : f a with
      | none => exact Nat.lt_succ_of_le (List.length_filterMap_le f rest)
      | some b =>
        rw [List.length_cons]
        exact Nat.succ_lt_succ (ih ⟨p, hmem, hfp⟩)

/-! Lemmas for skipping uncoercible offers in candidate generation. -/

theorem processOffer_uncoercible {affId source : PyVal}
    {acc : List CandidateTuple} {row : OfferRow}
    (h : pyInt row.ssp_segment_id = none) :
    processOffer affId source acc row = acc := by
  unfold processOffer
  rw [h]

theorem foldl_processOffer_filter_coercible (affId source : PyVal)
    (l : List OfferRow) (acc : List CandidateTuple) :
    l.foldl (processOffer affId source) acc =
      (l.filter (fun o => (pyInt o.ssp_segment_id).isSome)).foldl
        (processOffer affId source) acc := by
  induction l generalizing acc with
  | nil => rfl
  | cons o rest ih =>
    rw [List.foldl_cons, List.filter_cons]
    cases ho : pyInt o.ssp_segment_id with
    | none =>
      rw [processOffer_uncoercible ho]
      simp only [ho, Option.isSome_none, Bool.false_eq_true, if_false]
      exact ih acc
    | some seg =>
      simp only [ho, Option.isSome_some, if_true]
      rw [List.foldl_cons]
      exact ih _

theorem seg_filter_bool (o : OfferRow) :
    (decide (o.ssp_segment_id ≠ PyVal.vnone) &&
        (pyInt o.ssp_segment_id).isSome) =
      (pyInt o.ssp_segment_id).isSome := by
  cases h : o.ssp_segment_id <;> simp [pyInt]

theorem dropnaSegment_filter_coercible (offers : List OfferRow) :
    (dropnaSegment offers).filter
        (fun o => (pyInt o.ssp_segment_id).isSome) =
      offers.filter (fun o => (pyInt o.ssp_segment_id).isSome) := by
  unfold dropnaSegment
  rw [List.filter_filter]
  exact List.filter_congr (fun o ho => by
    rw [Bool.and_comm]
    exact seg_filter_bool o)

theorem dropnaSegment_of_filter_coercible (offers : List OfferRow) :
    dropnaSegment
        (offers.filter (fun o => (pyInt o.ssp_segment_id).isSome)) =
      offers.filter (fun o => (pyInt o.ssp_segment_id).isSome) := by
  unfold dropnaSegment
  rw [List.filter_filter]
  exact List.filter_congr (fun o ho => seg_filter_bool o)

/-! Claim theorems. -/

/-- C5: for all click and offer inputs, a tuple is a member of the
candidate set returned by `generate_aff_source_pairs` if and only if it
arises from some click paired with some offer whose segment id is non-null
and coerces to an integer and whose whitelist-union-blacklist is non-empty,
with exactly the prescribed tuple shape; and the candidate list is
duplicate-free (dedup by full-tuple equality). -/
theorem c5_candidateMembership (clicks : List ClickRow)
    (offers : List OfferRow) :
    (∀ t, t ∈ (generateAffSourcePairs clicks offers).1 ↔
      ∃ c ∈ clicks, ∃ o ∈ offers, o.ssp_segment_id ≠ PyVal.vnone ∧
        Emits c.current_aff_id c.current_source o t) ∧
    (generateAffSourcePairs clicks offers).1.Nodup :=
  ⟨fun t => mem_generateAffSourcePairs clicks offers t,
   nodup_generateAffSourcePairs clicks offers⟩

/-- C7: a cross-product row whose segment id cannot be coerced to an
integer is skipped (the error is logged, not raised) and processing
continues: the candidate list equals the one computed from the well-formed
offers alone, and the function is total, so a malformed row never aborts
the run. -/
theorem c7_skipUncoercibleOffers (clicks : List ClickRow)
    (offers : List OfferRow) :
    (generateAffSourcePairs clicks offers).1 =
      (generateAffSourcePairs clicks
        (offers.filter (fun o => (pyInt o.ssp_segment_id).isSome))).1 := by
  show clicks.foldl _ [] = clicks.foldl _ []
  apply foldl_funext
  intro acc c
  rw [dropnaSegment_of_filter_coercible]
  rw [foldl_processOffer_filter_coercible, dropnaSegment_filter_coercible]

/-- C9: candidate membership returned by `generate_aff_source_pairs` is
invariant under permutation of the click sequence and of the offer
sequence. -/
theorem c9_permutationInvariance (clicks clicks2 : List ClickRow)
    (offers offers2 : List OfferRow) (hc : clicks.Perm clicks2)
    (ho : offers.Perm offers2) (t : CandidateTuple) :
    t ∈ (generateAffSourcePairs clicks offers).1 ↔
      t ∈ (generateAffSourcePairs clicks2 offers2).1 := by
  rw [mem_generateAffSourcePairs, mem_generateAffSourcePairs]
  constructor
  · rintro ⟨c, hcm, o, hom, hseg, he⟩
    exact ⟨c, hc.mem_iff.mp hcm, o, ho.mem_iff.mp hom, hseg, he⟩
  · rintro ⟨c, hcm, o, hom, hseg, he⟩
    exact ⟨c, hc.mem_iff.mpr hcm, o, ho.mem_iff.mpr hom, hseg, he⟩

/-- C9 witness: permutation invariance instantiated at two concrete click
rows in swapped order against a concrete offer. -/
theorem c9_permutationInvariance_witness :
    candA ∈ (generateAffSourcePairs [clickA, clickB] [offerGood]).1 ↔
      candA ∈ (generateAffSourcePairs [clickB, clickA] [offerGood]).1 :=
  c9_permutationInvariance [clickA, clickB] [clickB, clickA]
    [offerGood] [offerGood] (List.Perm.swap clickB clickA [])
    (List.Perm.refl [offerGood]) candA

/-- C10: `generate_aff_source_pairs` mutates its offers argument in place:
after the call the callers offers frame is exactly the input with every
null-segment row removed, and the observed-hash set computed later in
`__main__` from that same object sees only the filtered rows. -/
theorem c10_offersMutatedInPlace (clicks : List ClickRow)
    (offers : List OfferRow) :
    (generateAffSourcePairs clicks offers).2 =
      offers.filter (fun o => decide (o.ssp_segment_id ≠ PyVal.vnone)) ∧
    (∀ o, o ∈ (generateAffSourcePairs clicks offers).2 ↔
      o ∈ offers ∧ o.ssp_segment_id ≠ PyVal.vnone) ∧
    mainObservedHashes clicks offers =
      getCurrentHashes
        (offers.filter (fun o => decide (o.ssp_segment_id ≠ PyVal.vnone))) :=
  ⟨rfl, fun o => @mem_dropnaSegment offers o, rfl⟩

/-- C1 counterexample: an offer with a null segment id and a whitelisted
token; after `generate_aff_source_pairs` runs first on the same offer
frame (as `__main__` does), the observed-hash set misses that token, so the
observed set is NOT computed from the original unfiltered offers. -/
theorem c1_counterexample :
    "tok1" ∈ offerNullSeg.source_token_whitelist ∧
    "tok1" ∉ mainObservedHashes [] [offerNullSeg] := by
  decide

/-- C1 amended: when `generate_aff_source_pairs` runs first on the same
offer frame, the observed-hash set contains exactly the whitelist and
blacklist tokens of the offers with a non-null segment id and a non-null
account id; tokens carried only by null-segment offers are lost to the
in-place filtering. -/
theorem c1_amended_observedHashes (dfAff : List ClickRow)
    (dfAcc : List OfferRow) (tok : String) :
    tok ∈ mainObservedHashes dfAff dfAcc ↔
      ∃ o ∈ dfAcc, o.ssp_segment_id ≠ PyVal.vnone ∧
        o.ssp_account_id ≠ PyVal.vnone ∧
        (tok ∈ o.source_token_whitelist ∨ tok ∈ o.source_token_blacklist) := by
  unfold mainObservedHashes
  rw [mem_getCurrentHashes]
  constructor
  · rintro ⟨o, ho, ha, hmem⟩
    rcases mem_dropnaSegment.mp ho with ⟨ho2, hseg⟩
    exact ⟨o, ho2, hseg, ha, hmem⟩
  · rintro ⟨o, ho, hseg, ha, hmem⟩
    exact ⟨o, mem_dropnaSegment.mpr ⟨ho, hseg⟩, ha, hmem⟩

/-- C8: an offer whose segment id is null contributes nothing to the
pipeline: removing it from the offers frame changes neither the result of
candidate generation (both the candidate list and the mutated frame) nor
the observed-hash set of the reference run. -/
theorem c8_nullSegmentContributesNothing (clicks : List ClickRow)
    (pre post : List OfferRow) (o : OfferRow)
    (h : o.ssp_segment_id = PyVal.vnone) :
    generateAffSourcePairs clicks (pre ++ o :: post) =
      generateAffSourcePairs clicks (pre ++ post) ∧
    mainObservedHashes clicks (pre ++ o :: post) =
      mainObservedHashes clicks (pre ++ post) := by
  have hdrop : dropnaSegment (pre ++ o :: post) =
      dropnaSegment (pre ++ post) := by
    unfold dropnaSegment
    rw [List.filter_append, List.filter_append, List.filter_cons]
    simp [h]
  constructor
  · unfold generateAffSourcePairs
    rw [hdrop]
  · unfold mainObservedHashes generateAffSourcePairs
    rw [hdrop]

/-- C8 witness: the null-segment fixture offer contributes nothing when it
is the only offer. -/
theorem c8_nullSegmentContributesNothing_witness :
    generateAffSourcePairs [] ([] ++ offerNullSeg :: []) =
      generateAffSourcePairs [] ([] ++ []) ∧
    mainObservedHashes [] ([] ++ offerNullSeg :: []) =
      mainObservedHashes [] ([] ++ []) :=
  c8_nullSegmentContributesNothing [] [] [] offerNullSeg rfl

/-- C2 counterexample: on an input containing one uncoercible candidate,
`traffic_source_hash_pairs` does not return a sequence of length one less
than the input; it raises the pandas column-length mismatch, because only
the hash column drops the uncoercible row while the tuple columns keep it. -/
theorem c2_counterexample :
    ([badTuple, goodTuple].filterMap coerceValue).length = 1 ∧
    trafficSourceHashPairs hashtextModel [badTuple, goodTuple]
        [badTuple, goodTuple] =
      Except.error lengthMismatchError := by
  constructor
  · rfl
  · rfl

/-- C2 amended: when every candidate coerces (and the input is non-empty so
the batched VALUES query is well-formed), the output has exactly the input
length and position i carries the tuple fields of input candidate i together
with the database hash of its coerced literal row; when some candidate is
uncoercible, the function raises an error instead of dropping that row from
the output. -/
theorem c2_amended_recomputeHashes (hashFn : String → Int)
    (data : List CandidateTuple) (hne : data ≠ [])
    (hco : ∀ p ∈ data, (pyInt p.aff_id).isSome) :
    trafficSourceHashPairs hashFn data data =
      Except.ok (data.map (rowWhenCoercible hashFn)) ∧
    (data.map (rowWhenCoercible hashFn)).length = data.length ∧
    (∀ p, toCandidate (rowWhenCoercible hashFn p) = p) ∧
    (∀ data2 : List CandidateTuple, (∃ p ∈ data2, pyInt p.aff_id = none) →
      ∃ msg, trafficSourceHashPairs hashFn data2 data2 =
        Except.error msg) := by
  refine ⟨?_, by simp, fun p => rfl, ?_⟩
  · unfold trafficSourceHashPairs
    rw [filterMap_coerceValue_all_some hco]
    have hnonempty : (data.map (fun p =>
        ((pyInt p.aff_id).getD 0, pyStr p.source, p.account_id,
          p.segment_id))).isEmpty = false := by
      cases data with
      | nil => exact absurd rfl hne
      | cons p rest => rfl
    rw [hnonempty]
    simp only [Bool.false_eq_true, if_false]
    rw [if_pos (by simp)]
    rw [List.map_map, List.zipWith_map_right, List.zipWith_same]
    rfl
  · rintro data2 ⟨p, hp, hpnone⟩
    have hlt : (data2.filterMap coerceValue).length < data2.length :=
      length_filterMap_lt coerceValue data2
        ⟨p, hp, coerceValue_eq_none.mpr hpnone⟩
    unfold trafficSourceHashPairs
    by_cases he : (data2.filterMap coerceValue).isEmpty
    · exact ⟨emptyValuesError, by rw [if_pos he]⟩
    · refine ⟨lengthMismatchError, ?_⟩
      rw [if_neg he, if_neg (by simpa using Nat.ne_of_lt hlt)]

/-- C2 witness: the amended statement instantiated at a singleton coercible
input and, for the error part, at a singleton uncoercible input. -/
theorem c2_amended_recomputeHashes_witness :
    trafficSourceHashPairs hashtextModel [goodTuple] [goodTuple] =
      Except.ok ([goodTuple].map (rowWhenCoercible hashtextModel)) ∧
    ([goodTuple].map (rowWhenCoercible hashtextModel)).length =
      [goodTuple].length ∧
    toCandidate (rowWhenCoercible hashtextModel goodTuple) = goodTuple ∧
    ∃ msg, trafficSourceHashPairs hashtextModel [badTuple] [badTuple] =
      Except.error msg := by
  have h := c2_amended_recomputeHashes hashtextModel [goodTuple]
    (by simp) (by decide)
  exact ⟨h.1, h.2.1, h.2.2.1 goodTuple,
    h.2.2.2 [badTuple] ⟨badTuple, List.mem_singleton.mpr rfl, by decide⟩⟩

/-- C3: `traffic_source_hash_pairs` assembles its tuple columns from the
module-level global `pairs`, not from its `data` parameter: whenever it
returns a table, the tuple columns are exactly the global `pairs` while
only the hash column is computed from `data`; and `rehashed_sources` calls
`traffic_source_hash_pairs` on the global `pairs` rather than on any
hashed-candidate argument. -/
theorem c3_tupleColumnsFromGlobalPairs (hashFn : String → Int)
    (data pairsGlobal : List CandidateTuple) (out : List HashedRow)
    (hashedList : List String)
    (h : trafficSourceHashPairs hashFn data pairsGlobal = Except.ok out) :
    out.map toCandidate = pairsGlobal ∧
    out.map HashedRow.hash_value =
      (data.filterMap coerceValue).map (fun v => hashFn (hashArgString v)) ∧
    rehashedSources hashFn hashedList pairsGlobal =
      (trafficSourceHashPairs hashFn pairsGlobal pairsGlobal).map
        (fun df => rehashedSourcesLoop df hashedList) := by
  obtain ⟨hlen, hout⟩ := trafficSourceHashPairs_ok h
  refine ⟨?_, ?_, ?_⟩
  · rw [hout]
    exact map_toCandidate_zipWith pairsGlobal _ hlen
  · rw [hout]
    exact map_hash_zipWith pairsGlobal _ hlen
  · unfold rehashedSources
    split
    · rename_i df heq
      rw [heq]
      rfl
    · rename_i e heq
      rw [heq]
      rfl

/-- C3 witness: the theorem instantiated at a singleton coercible input
serving as both the data argument and the global `pairs`. -/
theorem c3_tupleColumnsFromGlobalPairs_witness :
    ([rowWhenCoercible hashtextModel goodTuple].map toCandidate =
      [goodTuple]) ∧
    ([rowWhenCoercible hashtextModel goodTuple].map HashedRow.hash_value =
      ([goodTuple].filterMap coerceValue).map
        (fun v => hashtextModel (hashArgString v))) ∧
    rehashedSources hashtextModel [] [goodTuple] =
      (trafficSourceHashPairs hashtextModel [goodTuple] [goodTuple]).map
        (fun df => rehashedSourcesLoop df []) :=
  c3_tupleColumnsFromGlobalPairs hashtextModel [goodTuple] [goodTuple]
    [rowWhenCoercible hashtextModel goodTuple] [] rfl

/-- C4 counterexample: an empty candidate list does NOT propagate to an
empty output of `traffic_source_hash_pairs`: the batched query has an empty
VALUES list, which PostgreSQL rejects, so the call raises instead of
returning an empty table. -/
theorem c4_counterexample :
    trafficSourceHashPairs hashtextModel [] [] =
      Except.error emptyValuesError ∧
    trafficSourceHashPairs hashtextModel [] [] ≠ Except.ok [] := by
  constructor
  · rfl
  · intro hcontra
    rw [show trafficSourceHashPairs hashtextModel [] [] =
      Except.error emptyValuesError from rfl] at hcontra
    exact Except.noConfusion hcontra

/-- C4 amended: empty clicks or empty offers yield an empty candidate set
from `generate_aff_source_pairs`, and an empty observed-hash set filters
every row out of the reconcile loop, both without error; but an empty
candidate list makes `traffic_source_hash_pairs` issue a VALUES clause with
no rows, which fails as a query-execution error rather than producing an
empty output. -/
theorem c4_amended_emptyIntermediates :
    (∀ offers : List OfferRow, (generateAffSourcePairs [] offers).1 = []) ∧
    (∀ clicks : List ClickRow, (generateAffSourcePairs clicks []).1 = []) ∧
    (∀ hashed : List HashedRow, rehashedSourcesLoop hashed [] = []) ∧
    (∀ (hashFn : String → Int) (pairsGlobal : List CandidateTuple),
      trafficSourceHashPairs hashFn [] pairsGlobal =
        Except.error emptyValuesError) := by
  refine ⟨fun offers => rfl, fun clicks => ?_, fun hashed => ?_,
    fun hashFn pG => rfl⟩
  · show clicks.foldl _ [] = []
    rw [foldl_funext clicks []
      (f := fun acc c => (dropnaSegment []).foldl
        (processOffer c.current_aff_id c.current_source) acc)
      (g := fun acc c => acc) (fun acc c => rfl)]
    exact foldl_id clicks []
  · rw [rehashedSourcesLoop_eq_filter]
    simp

/-- C6: the filtering loop of `rehashed_sources` keeps a row if and only if
the string form of its hash value is in the observed set, passes each kept
row through unchanged, preserves input order, and its output is a sublist
of its input. -/
theorem c6_reconcileFilter (hashed : List HashedRow)
    (observed : List String) :
    rehashedSourcesLoop hashed observed =
      hashed.filter
        (fun r => decide (toString r.hash_value ∈ observed)) ∧
    List.Sublist (rehashedSourcesLoop hashed observed) hashed ∧
    ∀ r, r ∈ rehashedSourcesLoop hashed observed ↔
      r ∈ hashed ∧ toString r.hash_value ∈ observed := by
  refine ⟨rehashedSourcesLoop_eq_filter hashed observed, ?_, ?_⟩
  · rw [rehashedSourcesLoop_eq_filter]
    exact List.filter_sublist hashed
  · intro r
    rw [rehashedSourcesLoop_eq_filter, List.mem_filter]
    simp

end Rehash
